import Mathlib

/-!
Shallow embedding of `scrapy_zyte_api/handler.py`
(`ScrapyZyteAPIDownloadHandler`): routing of requests to the Zyte API
path, construction of the outbound API payload, adaptation of the API
response, error-message extraction, and shutdown ordering.

Python `dict`s are modelled as association lists in insertion order with
unique keys (lookup takes the first match); JSON values are modelled by
the inductive `Val`.  External stdlib behaviour that the handler relies
on (`str.encode("utf-8")` / `bytes.decode("utf-8")` and `json.loads`) is
modelled by executable functions below.
-/

/-- JSON-like Python values, as produced by `json.loads` and stored in
`request.meta`.  Numbers are modelled as integers. -/
inductive Val where
  | null
  | bool (b : Bool)
  | num (n : Int)
  | str (s : String)
  | arr (elems : List Val)
  | dict (entries : List (String × Val))

/-- Python truthiness (`if x:`) on modelled values. -/
def truthy : Val → Bool
  | .null => false
  | .bool b => b
  | .num n => n ≠ 0
  | .str s => ¬ s.isEmpty
  | .arr es => ¬ es.isEmpty
  | .dict es => ¬ es.isEmpty

/-- `isinstance(x, dict)`. -/
def Val.isDict : Val → Bool
  | .dict _ => true
  | _ => false

/-- Keys of a modelled Python dict. -/
def dkeys (d : List (String × Val)) : List String := d.map Prod.fst

/-- Python dict assignment `d[k] = v`: overwrite in place if the key is
present, append otherwise. -/
def dictSet (d : List (String × Val)) (k : String) (v : Val) :
    List (String × Val) :=
  if (dkeys d).contains k then
    d.map (fun p => if p.1 == k then (k, v) else p)
  else
    d ++ [(k, v)]

/-- Log events emitted by the handler, tagged by source line. -/
inductive LogEvent where
  | errorParamsNotDict (url : String)
  | warnKeyNotAllowed (key url : String)
  | warnKeyOverwrite (key url : String)
  | errorApi (status : Nat) (url : String) (message : Val)
  | errorOther (url msg : String)

/-- `allowed_keys = {"javascript", "geolocation", "echoData"}`. -/
def allowed_keys : List String := ["javascript", "geolocation", "echoData"]

/-- The merge loop of `_download_request` (lines 49-63): fold the
caller-supplied `api_params` items into `api_data`, skipping (with a
warning) keys outside `allowed_keys` and keys already present in
`api_data`. Returns the final `api_data` and the warnings in order. -/
def mergeParams (url : String) (api_data : List (String × Val)) :
    List (String × Val) → List (String × Val) × List LogEvent
  | [] => (api_data, [])
  | (key, value) :: rest =>
    if ¬ allowed_keys.contains key then
      let r := mergeParams url api_data rest
      (r.1, .warnKeyNotAllowed key url :: r.2)
    else if (dkeys api_data).contains key then
      let r := mergeParams url api_data rest
      (r.1, .warnKeyOverwrite key url :: r.2)
    else
      mergeParams url (api_data ++ [(key, value)]) rest

/-- `api_data` after the merge loop, starting from the base payload
`{"url": request.url, "browserHtml": True}`. -/
def buildApiData (url : String) (params : List (String × Val)) :
    List (String × Val) × List LogEvent :=
  mergeParams url [("url", Val.str url), ("browserHtml", Val.bool true)] params

/-- Lines 64-65: `if self._job_id is not None: api_data["jobId"] = self._job_id`. -/
def attachJobId (job_id : Option Val) (d : List (String × Val)) :
    List (String × Val) :=
  match job_id with
  | some j => dictSet d "jobId" j
  | none => d

/-- The complete outbound API payload for a dict-valued `zyte_api` meta
entry (merge loop followed by the job-id attachment). -/
def buildPayload (job_id : Option Val) (url : String)
    (params : List (String × Val)) : List (String × Val) × List LogEvent :=
  let r := buildApiData url params
  (attachJobId job_id r.1, r.2)

/-! ### UTF-8 codec (model of Python `str.encode` / `bytes.decode`) -/

/-- UTF-8 encoding of a single Unicode code point, as a list of byte
values. -/
def utf8EncodeCp (n : Nat) : List Nat :=
  if n < 0x80 then [n]
  else if n < 0x800 then [0xC0 + n / 64, 0x80 + n % 64]
  else if n < 0x10000 then
    [0xE0 + n / 4096, 0x80 + n / 64 % 64, 0x80 + n % 64]
  else
    [0xF0 + n / 262144, 0x80 + n / 4096 % 64, 0x80 + n / 64 % 64,
      0x80 + n % 64]

/-- Python `s.encode("utf-8")`: byte values of the UTF-8 encoding. -/
def pyEncodeUtf8 (s : String) : List Nat :=
  (s.data.map (fun c => utf8EncodeCp c.toNat)).flatten

/-- Is `b` a UTF-8 continuation byte (`10xxxxxx`)? -/
def isCont (b : Nat) : Bool := 0x80 ≤ b ∧ b < 0xC0

/-- Accept a decoded code point if it is in range, not a surrogate, and
not the result of an overlong encoding (strict decoding, as Python). -/
def cpOk (n lo : Nat) : Bool :=
  lo ≤ n ∧ n < 0x110000 ∧ ¬ (0xD800 ≤ n ∧ n < 0xE000)

/-- Strict UTF-8 decoding (model of Python `bytes.decode("utf-8")`),
driven by fuel; `none` models `UnicodeDecodeError`. -/
def utf8DecodeAux : Nat → List Nat → Option (List Char)
  | _, [] => some []
  | 0, _ :: _ => none
  | fuel + 1, b :: bs =>
    if b < 0x80 then
      match utf8DecodeAux fuel bs with
      | some cs => some (Char.ofNat b :: cs)
      | none => none
    else
      match bs with
      | b2 :: bs2 =>
        if 0xC0 ≤ b ∧ b < 0xE0 ∧ isCont b2 then
          let n := (b - 0xC0) * 64 + (b2 - 0x80)
          if cpOk n 0x80 then
            match utf8DecodeAux fuel bs2 with
            | some cs => some (Char.ofNat n :: cs)
            | none => none
          else none
        else
          match bs2 with
          | b3 :: bs3 =>
            if 0xE0 ≤ b ∧ b < 0xF0 ∧ isCont b2 ∧ isCont b3 then
              let n := (b - 0xE0) * 4096 + (b2 - 0x80) * 64 + (b3 - 0x80)
              if cpOk n 0x800 then
                match utf8DecodeAux fuel bs3 with
                | some cs => some (Char.ofNat n :: cs)
                | none => none
              else none
            else
              match bs3 with
              | b4 :: bs4 =>
                if 0xF0 ≤ b ∧ b < 0xF5 ∧ isCont b2 ∧ isCont b3 ∧ isCont b4 then
                  let n := (b - 0xF0) * 262144 + (b2 - 0x80) * 4096 +
                    (b3 - 0x80) * 64 + (b4 - 0x80)
                  if cpOk n 0x10000 then
                    match utf8DecodeAux fuel bs4 with
                    | some cs => some (Char.ofNat n :: cs)
                    | none => none
                  else none
                else none
              | [] => none
          | [] => none
      | [] => none

/-- Python `bytes.decode("utf-8")` on a byte-value list. -/
def utf8Decode (bs : List Nat) : Option (List Char) :=
  utf8DecodeAux (bs.length + 1) bs

/-! ### JSON parser (model of Python `json.loads`)

Supports objects, arrays, strings with escapes, integer numbers,
`true`/`false`/`null`.  Fractional and exponent numbers are not
modelled (no claim involves them); duplicate object keys keep the last
value, as `json.loads` does. -/

/-- Skip JSON whitespace. -/
def skipWs : List Char → List Char
  | c :: cs =>
    if c = ' ' ∨ c = '\t' ∨ c = '\n' ∨ c = '\r' then skipWs cs else c :: cs
  | [] => []

/-- Value of a hexadecimal digit. -/
def hexVal (c : Char) : Option Nat :=
  if '0' ≤ c ∧ c ≤ '9' then some (c.toNat - '0'.toNat)
  else if 'a' ≤ c ∧ c ≤ 'f' then some (c.toNat - 'a'.toNat + 10)
  else if 'A' ≤ c ∧ c ≤ 'F' then some (c.toNat - 'A'.toNat + 10)
  else none

/-- Parse the body of a JSON string (the opening quote already
consumed), returning the string and the rest of the input. -/
def parseJString : List Char → Option (List Char × List Char)
  | [] => none
  | '"' :: cs => some ([], cs)
  | '\\' :: e :: cs =>
    match e with
    | '"' => (parseJString cs).map (fun r => ('"' :: r.1, r.2))
    | '\\' => (parseJString cs).map (fun r => ('\\' :: r.1, r.2))
    | '/' => (parseJString cs).map (fun r => ('/' :: r.1, r.2))
    | 'b' => (parseJString cs).map (fun r => ('\x08' :: r.1, r.2))
    | 'f' => (parseJString cs).map (fun r => ('\x0c' :: r.1, r.2))
    | 'n' => (parseJString cs).map (fun r => ('\n' :: r.1, r.2))
    | 'r' => (parseJString cs).map (fun r => ('\r' :: r.1, r.2))
    | 't' => (parseJString cs).map (fun r => ('\t' :: r.1, r.2))
    | 'u' =>
      match cs with
      | a :: b :: c :: d :: cs2 =>
        match hexVal a, hexVal b, hexVal c, hexVal d with
        | some x, some y, some z, some w =>
          let n := ((x * 16 + y) * 16 + z) * 16 + w
          (parseJString cs2).map (fun r => (Char.ofNat n :: r.1, r.2))
        | _, _, _, _ => none
      | _ => none
    | _ => none
  | c :: cs => (parseJString cs).map (fun r => (c :: r.1, r.2))

/-- Parse a run of decimal digits. -/
def parseDigits : List Char → List Char × List Char
  | c :: cs =>
    if '0' ≤ c ∧ c ≤ '9' then
      let r := parseDigits cs
      (c :: r.1, r.2)
    else ([], c :: cs)
  | [] => ([], [])

/-- Digits to a natural number. -/
def digitsToNat (ds : List Char) : Nat :=
  ds.foldl (fun acc c => acc * 10 + (c.toNat - '0'.toNat)) 0

/-- Parse a JSON integer (`0` or a nonzero digit followed by digits,
with optional leading minus). -/
def parseJInt : List Char → Option (Int × List Char)
  | '-' :: cs =>
    match cs with
    | '0' :: cs2 => some (0, cs2)
    | c :: _ =>
      if '1' ≤ c ∧ c ≤ '9' then
        let r := parseDigits cs
        some (-(digitsToNat r.1 : Int), r.2)
      else none
    | [] => none
  | '0' :: cs => some (0, cs)
  | c :: cs =>
    if '1' ≤ c ∧ c ≤ '9' then
      let r := parseDigits cs
      some ((digitsToNat (c :: r.1) : Int), r.2)
    else none
  | [] => none

mutual

/-- Parse one JSON value (fuel-driven recursive descent). -/
def parseJVal (fuel : Nat) (cs : List Char) : Option (Val × List Char) :=
  match fuel with
  | 0 => none
  | fuel + 1 =>
    match skipWs cs with
    | '{' :: rest =>
      match skipWs rest with
      | '}' :: rest2 => some (.dict [], rest2)
      | rest2 => parseJMembers fuel [] rest2
    | '[' :: rest =>
      match skipWs rest with
      | ']' :: rest2 => some (.arr [], rest2)
      | rest2 => parseJElems fuel [] rest2
    | '"' :: rest =>
      (parseJString rest).map (fun r => (.str (String.mk r.1), r.2))
    | 't' :: 'r' :: 'u' :: 'e' :: rest => some (.bool true, rest)
    | 'f' :: 'a' :: 'l' :: 's' :: 'e' :: rest => some (.bool false, rest)
    | 'n' :: 'u' :: 'l' :: 'l' :: rest => some (.null, rest)
    | rest => (parseJInt rest).map (fun r => (.num r.1, r.2))

/-- Parse the members of a JSON object after `{` (and not `}`),
accumulating with last-key-wins semantics. -/
def parseJMembers (fuel : Nat) (acc : List (String × Val)) (cs : List Char) :
    Option (Val × List Char) :=
  match fuel with
  | 0 => none
  | fuel + 1 =>
    match skipWs cs with
    | '"' :: rest =>
      match parseJString rest with
      | some (key, rest2) =>
        match skipWs rest2 with
        | ':' :: rest3 =>
          match parseJVal fuel rest3 with
          | some (v, rest4) =>
            let acc2 := dictSet acc (String.mk key) v
            match skipWs rest4 with
            | ',' :: rest5 => parseJMembers fuel acc2 rest5
            | '}' :: rest5 => some (.dict acc2, rest5)
            | _ => none
          | none => none
        | _ => none
      | none => none
    | _ => none

/-- Parse the elements of a JSON array after `[` (and not `]`). -/
def parseJElems (fuel : Nat) (acc : List Val) (cs : List Char) :
    Option (Val × List Char) :=
  match fuel with
  | 0 => none
  | fuel + 1 =>
    match parseJVal fuel cs with
    | some (v, rest) =>
      match skipWs rest with
      | ',' :: rest2 => parseJElems fuel (acc ++ [v]) rest2
      | ']' :: rest2 => some (.arr (acc ++ [v]), rest2)
      | _ => none
    | none => none

end

/-- Python `json.loads` on a decoded character list: parse one value and
require only whitespace to remain. -/
def jsonLoads (cs : List Char) : Option Val :=
  match parseJVal (cs.length + 1) cs with
  | some (v, rest) => if (skipWs rest).isEmpty then some v else none
  | none => none

/-! ### The handler -/

/-- The structured error raised by the API client
(`zyte_api.aio.errors.RequestError`): status, an optional `message`
attribute (`none` models the attribute being absent), the `str(error)`
form, and optional raw `response_content` bytes (`none` models the
attribute being absent or `None`; both make `_get_request_error_message`
fall back to the base message, the latter because `None.decode` raises a
caught `AttributeError`). -/
structure RequestError where
  status : Nat
  message : Option String
  str_form : String
  response_content : Option (List Nat)

/-- The `base_message` of `_get_request_error_message`: the error's
`message` attribute, or `str(error)` when absent. -/
def baseMessage (e : RequestError) : Val :=
  .str (e.message.getD e.str_form)

/-- `_get_request_error_message` (lines 100-113).  Returns
`Except.ok msg` for a normal return and `Except.error exn` when an
uncaught Python exception `exn` escapes (the `try` only covers the
decode/parse line, so `error_data.get` on a non-dict parse result raises
an uncaught `AttributeError`). -/
def getRequestErrorMessage (e : RequestError) : Except String Val :=
  match e.response_content with
  | none => .ok (baseMessage e)
  | some bytes =>
    match utf8Decode bytes with
    | none => .ok (baseMessage e)
    | some chars =>
      match jsonLoads chars with
      | none => .ok (baseMessage e)
      | some (.dict entries) =>
        match entries.lookup "detail" with
        | some d => if truthy d then .ok d else .ok (baseMessage e)
        | none => .ok (baseMessage e)
      | some _ => .error "AttributeError"

/-- Result of `self._client.request_raw(...)`: the parsed JSON response
dict on success, a `RequestError`, or any other exception (carried as
its message). -/
inductive ApiCallResult where
  | success (response : List (String × Val))
  | requestError (e : RequestError)
  | otherError (msg : String)

/-- The adapted `scrapy.http.Response` built on success: URL, fixed
status 200, UTF-8 body bytes, the `zyte-api` flag, and no headers. -/
structure ZResponse where
  url : String
  status : Nat
  body : List Nat
  flags : List String
  headers : List (String × String)

/-- How `_download_request` terminates: a returned response, a raised
`IgnoreRequest`, or some other uncaught Python exception. -/
inductive DownloadOutcome where
  | response (r : ZResponse)
  | ignoreRequest
  | uncaught (exn : String)

/-- Observable effects of one `_download_request` call. -/
structure DownloadResult where
  outcome : DownloadOutcome
  logs : List LogEvent
  calledApi : Bool
  statsIncremented : Bool

/-- `_download_request` (lines 39-89), with the external client call
supplied as a function `call` from the outbound payload to its result.
`api_params` is `request.meta["zyte_api"]`. -/
def downloadRequestApi (job_id : Option Val) (url : String)
    (api_params : Val) (call : List (String × Val) → ApiCallResult) :
    DownloadResult :=
  match api_params with
  | .dict params =>
    let payload := (buildPayload job_id url params).1
    let mergeLogs := (buildPayload job_id url params).2
    match call payload with
    | .requestError e =>
      match getRequestErrorMessage e with
      | .ok msg =>
        ⟨.ignoreRequest, mergeLogs ++ [.errorApi e.status url msg],
          true, false⟩
      | .error exn => ⟨.uncaught exn, mergeLogs, true, false⟩
    | .otherError m =>
      ⟨.ignoreRequest, mergeLogs ++ [.errorOther url m], true, false⟩
    | .success resp =>
      match resp.lookup "browserHtml" with
      | some (.str s) =>
        ⟨.response ⟨url, 200, pyEncodeUtf8 s, ["zyte-api"], []⟩,
          mergeLogs, true, true⟩
      | some _ => ⟨.uncaught "AttributeError", mergeLogs, true, true⟩
      | none => ⟨.uncaught "KeyError", mergeLogs, true, true⟩
  | _ => ⟨.ignoreRequest, [.errorParamsNotDict url], false, false⟩

/-- Which path `download_request` (lines 33-37) takes for a request with
the given meta dict: the Zyte API coroutine, or delegation to the
superclass `HTTPDownloadHandler`. -/
inductive Route where
  | api
  | fallback

/-- `download_request`: route on the truthiness of
`request.meta.get("zyte_api")`. -/
def download_request (meta : List (String × Val)) : Route :=
  match meta.lookup "zyte_api" with
  | some v => if truthy v then .api else .fallback
  | none => .fallback

/-! ### Shutdown -/

/-- The two shutdown actions of `close` (lines 91-97). -/
inductive CloseEvent where
  | superClose
  | sessionClose
deriving DecidableEq

/-- `yield super().close()`: the superseded handler's own shutdown. -/
def super_close (log : List CloseEvent) : List CloseEvent :=
  log ++ [.superClose]

/-- `await self._session.close()`: release the shared network session. -/
def session_close (log : List CloseEvent) : List CloseEvent :=
  log ++ [.sessionClose]

/-- `close`: the superseded handler's shutdown, then the session
release. -/
def close_run (log : List CloseEvent) : List CloseEvent :=
  session_close (super_close log)

/-- The decode-and-parse step of `_get_request_error_message`:
`json.loads(error.response_content.decode("utf-8"))`, with `none` when
the content is absent or either step raises one of the caught
exceptions. -/
def decodedJson (e : RequestError) : Option Val :=
  match e.response_content with
  | none => none
  | some bytes =>
    match utf8Decode bytes with
    | none => none
    | some chars => jsonLoads chars

/-- A structured API error whose raw content is the JSON bytes of
`\x7b"detail": "rate limited"\x7d`. -/
def rateLimitedError : RequestError :=
  ⟨429, some "too many requests", "too many requests",
    some (pyEncodeUtf8 "\x7b\"detail\": \"rate limited\"\x7d")⟩

/-- A structured API error whose raw content is the JSON bytes of the
array `[]` (valid JSON, but not an object). -/
def nonDictError : RequestError :=
  ⟨500, some "server error", "server error", some (pyEncodeUtf8 "[]")⟩

/-! ### Helper lemmas -/

theorem contains_iff_mem {l : List String} {a : String} :
    l.contains a = true ↔ a ∈ l :=
  List.elem_iff

theorem mem_allowed {k : String} (h : allowed_keys.contains k = true) :
    k = "javascript" ∨ k = "geolocation" ∨ k = "echoData" := by
  have hm := contains_iff_mem.mp h
  simpa [allowed_keys] using hm

theorem allowed_ne_url {k : String} (h : allowed_keys.contains k = true) :
    k ≠ "url" := by
  rcases mem_allowed h with rfl | rfl | rfl <;> decide

theorem allowed_ne_browserHtml {k : String}
    (h : allowed_keys.contains k = true) : k ≠ "browserHtml" := by
  rcases mem_allowed h with rfl | rfl | rfl <;> decide

theorem allowed_ne_jobId {k : String} (h : allowed_keys.contains k = true) :
    k ≠ "jobId" := by
  rcases mem_allowed h with rfl | rfl | rfl <;> decide

/-- Characterisation of the merge loop for a well-formed (unique-key)
parameter dict whose allowed keys are absent from the accumulator: the
result is the accumulator extended by exactly the allowed entries in
order, and the log is exactly one not-allowed warning per disallowed
entry in order. -/
theorem mergeParams_spec (url : String) :
    ∀ (params acc : List (String × Val)),
      (params.map Prod.fst).Nodup →
      (∀ p ∈ params, allowed_keys.contains p.1 = true → p.1 ∉ dkeys acc) →
      mergeParams url acc params =
        (acc ++ params.filter (fun p => allowed_keys.contains p.1),
          (params.filter (fun p => ¬ allowed_keys.contains p.1)).map
            (fun p => LogEvent.warnKeyNotAllowed p.1 url)) := by
  intro params
  induction params with
  | nil => intro acc _ _; simp [mergeParams]
  | cons hd rest ih =>
    intro acc hnd hdisj
    obtain ⟨k, v⟩ := hd
    have hnd' : (rest.map Prod.fst).Nodup := (List.nodup_cons.mp hnd).2
    have hknotin : k ∉ rest.map Prod.fst := (List.nodup_cons.mp hnd).1
    by_cases hk : allowed_keys.contains k = true
    · have hkmem : k ∈ allowed_keys := contains_iff_mem.mp hk
      have hkacc : k ∉ dkeys acc := hdisj (k, v) (by simp) hk
      have hkacc' : (dkeys acc).contains k = false := by
        rw [Bool.eq_false_iff]
        intro hc
        exact hkacc (List.elem_iff.mp hc)
      have hdisj' : ∀ p ∈ rest, allowed_keys.contains p.1 = true →
          p.1 ∉ dkeys (acc ++ [(k, v)]) := by
        intro p hp hpk hmem
        have h2 : p.1 ≠ k := fun he =>
          hknotin (he ▸ List.mem_map_of_mem Prod.fst hp)
        rw [dkeys, List.map_append] at hmem
        rcases List.mem_append.mp hmem with h | h
        · exact hdisj p (List.mem_cons_of_mem _ hp) hpk h
        · exact h2 (by simpa using h)
      have hrec := ih (acc ++ [(k, v)]) hnd' hdisj'
      have hf1 : List.filter (fun p => allowed_keys.contains p.1)
          ((k, v) :: rest) =
          (k, v) :: List.filter (fun p => allowed_keys.contains p.1) rest := by
        rw [List.filter_cons]
        simp [hkmem]
      have hf2 : List.filter (fun p => ¬ allowed_keys.contains p.1)
          ((k, v) :: rest) =
          List.filter (fun p => ¬ allowed_keys.contains p.1) rest := by
        rw [List.filter_cons]
        simp [hkmem]
      rw [hf1, hf2]
      simp only [mergeParams, hk, hkacc']
      simp only [not_true_eq_false, if_false, Bool.false_eq_true, hrec]
      simp [List.append_assoc]
    · have hk' : allowed_keys.contains k = false := by
        rw [Bool.eq_false_iff]
        exact hk
      have hkmem : k ∉ allowed_keys := fun hm => hk (contains_iff_mem.mpr hm)
      have hdisj' : ∀ p ∈ rest, allowed_keys.contains p.1 = true →
          p.1 ∉ dkeys acc := fun p hp hpk =>
        hdisj p (List.mem_cons_of_mem _ hp) hpk
      have hrec := ih acc hnd' hdisj'
      have hf1 : List.filter (fun p => allowed_keys.contains p.1)
          ((k, v) :: rest) =
          List.filter (fun p => allowed_keys.contains p.1) rest := by
        rw [List.filter_cons]
        simp [hkmem]
      have hf2 : List.filter (fun p => ¬ allowed_keys.contains p.1)
          ((k, v) :: rest) =
          (k, v) :: List.filter (fun p => ¬ allowed_keys.contains p.1) rest := by
        rw [List.filter_cons]
        simp [hkmem]
      rw [hf1, hf2]
      simp only [mergeParams, hk']
      simp [hrec]

/-- The merge loop only ever appends entries (with allowed keys) after
the accumulator, for arbitrary parameter lists. -/
theorem mergeParams_fst_append (url : String) :
    ∀ (params acc : List (String × Val)), ∃ tail,
      (mergeParams url acc params).1 = acc ++ tail ∧
      ∀ p ∈ tail, allowed_keys.contains p.1 = true := by
  intro params
  induction params with
  | nil =>
    intro acc
    exact ⟨[], by simp [mergeParams], by simp⟩
  | cons hd rest ih =>
    intro acc
    obtain ⟨k, v⟩ := hd
    by_cases hk : allowed_keys.contains k = true
    · by_cases hacc : (dkeys acc).contains k = true
      · obtain ⟨tail, h1, h2⟩ := ih acc
        refine ⟨tail, ?_, h2⟩
        simp only [mergeParams, hk, hacc]
        simpa using h1
      · have hacc' : (dkeys acc).contains k = false := Bool.eq_false_iff.mpr hacc
        obtain ⟨tail, h1, h2⟩ := ih (acc ++ [(k, v)])
        refine ⟨(k, v) :: tail, ?_, ?_⟩
        · simp only [mergeParams, hk, hacc']
          simp only [not_true_eq_false, if_false, Bool.false_eq_true, h1]
          simp [List.append_assoc]
        · intro p hp
          rcases List.mem_cons.mp hp with rfl | hp'
          · exact hk
          · exact h2 p hp'
    · have hk' : allowed_keys.contains k = false := Bool.eq_false_iff.mpr hk
      obtain ⟨tail, h1, h2⟩ := ih acc
      refine ⟨tail, ?_, h2⟩
      simp only [mergeParams, hk']
      simpa using h1

/-- Lookup after overwriting key `k` is unchanged for other keys. -/
theorem lookup_map_overwrite (k : String) (v : Val) {k' : String}
    (h : k' ≠ k) :
    ∀ d : List (String × Val),
      (d.map (fun p => if p.1 == k then (k, v) else p)).lookup k' =
        d.lookup k' := by
  intro d
  induction d with
  | nil => simp
  | cons hd ds ih =>
    obtain ⟨a, b⟩ := hd
    by_cases ha : a = k
    · subst ha
      have hka : (k' == a) = false := beq_eq_false_iff_ne.mpr h
      simp only [List.map_cons, beq_self_eq_true, if_true, List.lookup_cons,
        hka]
      simpa using ih
    · have hne : (a == k) = false := beq_eq_false_iff_ne.mpr ha
      by_cases hk'a : k' = a
      · subst hk'a
        simp [List.lookup_cons, hne, ha]
      · have hka : (k' == a) = false := beq_eq_false_iff_ne.mpr hk'a
        simp only [List.map_cons, hne, Bool.false_eq_true, if_false,
          List.lookup_cons, hka]
        simpa using ih

/-- A key absent from `dkeys d` has no binding in `d`. -/
theorem lookup_eq_none_of_not_mem_dkeys {d : List (String × Val)}
    {k : String} (h : k ∉ dkeys d) : d.lookup k = none := by
  rw [List.lookup_eq_none_iff]
  intro p hp
  simp only [bne_iff_ne, ne_eq]
  intro he
  exact h (he ▸ List.mem_map_of_mem Prod.fst hp)

/-- `d[k] = v` makes `k` look up to `v`. -/
theorem lookup_dictSet_self (d : List (String × Val)) (k : String)
    (v : Val) : (dictSet d k v).lookup k = some v := by
  unfold dictSet
  by_cases hc : (dkeys d).contains k = true
  · simp only [hc, if_true]
    induction d with
    | nil => simp [dkeys] at hc
    | cons hd ds ih =>
      obtain ⟨a, b⟩ := hd
      by_cases ha : a = k
      · subst ha
        simp
      · have hne : (a == k) = false := beq_eq_false_iff_ne.mpr ha
        have hka : (k == a) = false := beq_eq_false_iff_ne.mpr (Ne.symm ha)
        have hc' : (dkeys ds).contains k = true := by
          have hm := contains_iff_mem.mp hc
          simp only [dkeys, List.map_cons, List.mem_cons] at hm
          rcases hm with hm | hm
          · exact absurd hm.symm ha
          · exact contains_iff_mem.mpr hm
        simp only [List.map_cons, hne, Bool.false_eq_true, if_false,
          List.lookup_cons, hka]
        simpa using ih hc'
  · have hnm : k ∉ dkeys d := fun hm => hc (contains_iff_mem.mpr hm)
    have hc' : (dkeys d).contains k = false := Bool.eq_false_iff.mpr hc
    simp only [hc', Bool.false_eq_true, if_false]
    rw [List.lookup_append, lookup_eq_none_of_not_mem_dkeys hnm]
    simp

/-- `d[k] = v` leaves the lookup of every other key unchanged. -/
theorem lookup_dictSet_ne (d : List (String × Val)) (k : String) (v : Val)
    {k' : String} (h : k' ≠ k) :
    (dictSet d k v).lookup k' = d.lookup k' := by
  unfold dictSet
  by_cases hc : (dkeys d).contains k = true
  · simp only [hc, if_true]
    exact lookup_map_overwrite k v h d
  · have hc' : (dkeys d).contains k = false := Bool.eq_false_iff.mpr hc
    simp only [hc', Bool.false_eq_true, if_false]
    rw [List.lookup_append]
    have hone : ([(k, v)] : List (String × Val)).lookup k' = none := by
      have hka : (k' == k) = false := beq_eq_false_iff_ne.mpr h
      simp [List.lookup_cons, hka]
    rw [hone]
    cases d.lookup k' <;> simp

/-- The `url` entry of the merged `api_data` is the request URL. -/
theorem buildApiData_lookup_url (url : String)
    (params : List (String × Val)) :
    ((buildApiData url params).1).lookup "url" = some (Val.str url) := by
  obtain ⟨tail, h1, _⟩ := mergeParams_fst_append url params
    [("url", Val.str url), ("browserHtml", Val.bool true)]
  rw [buildApiData, h1, List.lookup_append]
  simp

/-- The `browserHtml` entry of the merged `api_data` is `True`. -/
theorem buildApiData_lookup_browserHtml (url : String)
    (params : List (String × Val)) :
    ((buildApiData url params).1).lookup "browserHtml" =
      some (Val.bool true) := by
  obtain ⟨tail, h1, _⟩ := mergeParams_fst_append url params
    [("url", Val.str url), ("browserHtml", Val.bool true)]
  rw [buildApiData, h1, List.lookup_append]
  have hne : (("browserHtml" : String) == "url") = false := by decide
  simp [List.lookup_cons, hne]

/-- Keys outside the allowed set and the base payload never enter the
merged `api_data`. -/
theorem buildApiData_lookup_none (url : String)
    (params : List (String × Val)) {k : String}
    (hk : allowed_keys.contains k = false) (h1 : k ≠ "url")
    (h2 : k ≠ "browserHtml") :
    ((buildApiData url params).1).lookup k = none := by
  obtain ⟨tail, he, hall⟩ := mergeParams_fst_append url params
    [("url", Val.str url), ("browserHtml", Val.bool true)]
  rw [buildApiData, he, List.lookup_append]
  have hb : ([("url", Val.str url), ("browserHtml", Val.bool true)] :
      List (String × Val)).lookup k = none := by
    have e1 : (k == "url") = false := beq_eq_false_iff_ne.mpr h1
    have e2 : (k == "browserHtml") = false := beq_eq_false_iff_ne.mpr h2
    simp [List.lookup_cons, e1, e2]
  have ht : tail.lookup k = none := by
    apply lookup_eq_none_of_not_mem_dkeys
    intro hm
    obtain ⟨p, hp, hpe⟩ := List.mem_map.mp hm
    have := hall p hp
    rw [hpe, hk] at this
    exact Bool.false_ne_true this
  rw [hb, ht]
  simp

/-! ### Claims -/

/-- C1: for a dict-valued `zyte_api` parameter mapping, the merged
payload (lines 40-63) is exactly the base payload
`\x7burl: request URL, browserHtml: True\x7d` extended with exactly the
caller-supplied entries whose key is allowed, values unchanged and in
order; every disallowed caller key is absent (its lookup is what the
base payload alone gives) and gets a not-allowed warning, and those
warnings are exactly the log. -/
theorem C1_allowed_merge (url : String) (params : List (String × Val))
    (hnd : (params.map Prod.fst).Nodup) :
    (buildApiData url params).1 =
      [("url", Val.str url), ("browserHtml", Val.bool true)] ++
        params.filter (fun p => allowed_keys.contains p.1) ∧
    (buildApiData url params).2 =
      (params.filter (fun p => ¬ allowed_keys.contains p.1)).map
        (fun p => LogEvent.warnKeyNotAllowed p.1 url) ∧
    ∀ p ∈ params, allowed_keys.contains p.1 = false →
      ((buildApiData url params).1).lookup p.1 =
        ([("url", Val.str url), ("browserHtml", Val.bool true)] :
          List (String × Val)).lookup p.1 ∧
      LogEvent.warnKeyNotAllowed p.1 url ∈ (buildApiData url params).2 := by
  have hdisj : ∀ p ∈ params, allowed_keys.contains p.1 = true →
      p.1 ∉ dkeys [("url", Val.str url), ("browserHtml", Val.bool true)] := by
    intro p _ hpk hmem
    simp only [dkeys, List.map_cons, List.map_nil, List.mem_cons,
      List.mem_singleton] at hmem
    rcases hmem with h | h | h
    · exact allowed_ne_url hpk h
    · exact allowed_ne_browserHtml hpk h
    · exact absurd h (List.not_mem_nil _)
  have hspec := mergeParams_spec url params
    [("url", Val.str url), ("browserHtml", Val.bool true)] hnd hdisj
  refine ⟨?_, ?_, ?_⟩
  · rw [buildApiData, hspec]
  · rw [buildApiData, hspec]
  · intro p hp hpk
    constructor
    · obtain ⟨tail, he, hall⟩ := mergeParams_fst_append url params
        [("url", Val.str url), ("browserHtml", Val.bool true)]
      rw [buildApiData, he, List.lookup_append]
      have ht : tail.lookup p.1 = none := by
        apply lookup_eq_none_of_not_mem_dkeys
        intro hm
        obtain ⟨q, hq, hqe⟩ := List.mem_map.mp hm
        have := hall q hq
        rw [hqe, hpk] at this
        exact Bool.false_ne_true this
      rw [ht]
      cases ([("url", Val.str url), ("browserHtml", Val.bool true)] :
        List (String × Val)).lookup p.1 <;> simp
    · rw [buildApiData, hspec]
      refine List.mem_map.mpr ⟨p, ?_, rfl⟩
      refine List.mem_filter.mpr ⟨hp, ?_⟩
      simp only [decide_eq_true_eq]
      intro hc
      exact Bool.false_ne_true (hpk.symm.trans hc)

/-- C1 witness: a concrete dict with one allowed and one disallowed
key. -/
theorem C1_allowed_merge_witness :
    (buildApiData "https://example.com"
        [("geolocation", Val.str "US"), ("secret", Val.num 1)]).1 =
      [("url", Val.str "https://example.com"),
        ("browserHtml", Val.bool true), ("geolocation", Val.str "US")] ∧
    LogEvent.warnKeyNotAllowed "secret" "https://example.com" ∈
      (buildApiData "https://example.com"
        [("geolocation", Val.str "US"), ("secret", Val.num 1)]).2 := by
  have h := C1_allowed_merge "https://example.com"
    [("geolocation", Val.str "US"), ("secret", Val.num 1)] (by decide)
  exact ⟨h.1.trans (by rfl),
    (h.2.2 ("secret", Val.num 1) (by simp) (by decide)).2⟩

/-- C2: a non-dict `zyte_api` meta value makes `_download_request` log
an error and raise `IgnoreRequest`; it does not crash with another
exception and never issues the external API call. -/
theorem C2_non_dict_dropped (job_id : Option Val) (url : String) (v : Val)
    (call : List (String × Val) → ApiCallResult) (h : v.isDict = false) :
    (downloadRequestApi job_id url v call).outcome =
      DownloadOutcome.ignoreRequest ∧
    (downloadRequestApi job_id url v call).calledApi = false ∧
    (downloadRequestApi job_id url v call).logs =
      [LogEvent.errorParamsNotDict url] := by
  cases v with
  | dict entries => simp [Val.isDict] at h
  | null => exact ⟨rfl, rfl, rfl⟩
  | bool b => exact ⟨rfl, rfl, rfl⟩
  | num n => exact ⟨rfl, rfl, rfl⟩
  | str s => exact ⟨rfl, rfl, rfl⟩
  | arr es => exact ⟨rfl, rfl, rfl⟩

/-- C2 witness: a string-valued `zyte_api` meta entry. -/
theorem C2_non_dict_dropped_witness :
    (downloadRequestApi none "https://example.com" (Val.str "x")
      (fun _ => ApiCallResult.otherError "")).outcome =
      DownloadOutcome.ignoreRequest ∧
    (downloadRequestApi none "https://example.com" (Val.str "x")
      (fun _ => ApiCallResult.otherError "")).calledApi = false :=
  have h := C2_non_dict_dropped none "https://example.com" (Val.str "x")
    (fun _ => ApiCallResult.otherError "") rfl
  ⟨h.1, h.2.1⟩

/-- C3: in every outbound payload built for a dict-valued parameter
mapping (arbitrary caller entries, with or without a configured job id),
the `url` entry is the request URL and the `browserHtml` entry is
`True`. -/
theorem C3_reserved_keys (job_id : Option Val) (url : String)
    (params : List (String × Val)) :
    ((buildPayload job_id url params).1).lookup "url" =
      some (Val.str url) ∧
    ((buildPayload job_id url params).1).lookup "browserHtml" =
      some (Val.bool true) := by
  cases job_id with
  | none =>
    exact ⟨buildApiData_lookup_url url params,
      buildApiData_lookup_browserHtml url params⟩
  | some j =>
    constructor
    · rw [buildPayload]
      show (dictSet (buildApiData url params).1 "jobId" j).lookup "url" = _
      rw [lookup_dictSet_ne _ _ _ (by decide)]
      exact buildApiData_lookup_url url params
    · rw [buildPayload]
      show (dictSet (buildApiData url params).1 "jobId" j).lookup
        "browserHtml" = _
      rw [lookup_dictSet_ne _ _ _ (by decide)]
      exact buildApiData_lookup_browserHtml url params

/-- C5: the `jobId` entry of the outbound payload is exactly the
configured job identifier when one is set, and absent when none is
set. -/
theorem C5_jobId_payload (url : String) (params : List (String × Val))
    (j : Val) :
    ((buildPayload (some j) url params).1).lookup "jobId" = some j ∧
    ((buildPayload none url params).1).lookup "jobId" = none := by
  constructor
  · rw [buildPayload]
    show (dictSet (buildApiData url params).1 "jobId" j).lookup "jobId" = _
    exact lookup_dictSet_self _ _ _
  · rw [buildPayload]
    show ((buildApiData url params).1).lookup "jobId" = none
    exact buildApiData_lookup_none url params (by decide) (by decide)
      (by decide)

/-- C4: a successful API call whose response JSON has a string
`browserHtml` field yields a response with status 200, body the UTF-8
encoding of that string, flag `zyte-api`, no headers, and the stats
counter incremented. -/
theorem C4_success_response (job_id : Option Val) (url : String)
    (params : List (String × Val))
    (call : List (String × Val) → ApiCallResult)
    (resp : List (String × Val)) (s : String)
    (hcall : call (buildPayload job_id url params).1 =
      ApiCallResult.success resp)
    (hhtml : resp.lookup "browserHtml" = some (Val.str s)) :
    (downloadRequestApi job_id url (Val.dict params) call).outcome =
      DownloadOutcome.response ⟨url, 200, pyEncodeUtf8 s, ["zyte-api"], []⟩ ∧
    (downloadRequestApi job_id url (Val.dict params) call).statsIncremented =
      true := by
  simp only [downloadRequestApi, hcall, hhtml]
  exact ⟨trivial, trivial⟩

/-- C4 witness: response body \x7b"browserHtml": "<html></html>"\x7d gives
status 200 and body exactly the UTF-8 bytes of `<html></html>`. -/
theorem C4_success_response_witness :
    (downloadRequestApi none "https://example.com" (Val.dict [])
      (fun _ => ApiCallResult.success
        [("browserHtml", Val.str "<html></html>")])).outcome =
      DownloadOutcome.response ⟨"https://example.com", 200,
        [60, 104, 116, 109, 108, 62, 60, 47, 104, 116, 109, 108, 62],
        ["zyte-api"], []⟩ ∧
    (downloadRequestApi none "https://example.com" (Val.dict [])
      (fun _ => ApiCallResult.success
        [("browserHtml", Val.str "<html></html>")])).statsIncremented =
      true := by
  have h := C4_success_response none "https://example.com" []
    (fun _ => ApiCallResult.success
      [("browserHtml", Val.str "<html></html>")])
    [("browserHtml", Val.str "<html></html>")] "<html></html>" rfl rfl
  exact ⟨h.1.trans (by rfl), h.2⟩

/-- C6 (amended): for a structured API error whose raw content, when it
decodes and parses as JSON at all, parses to a JSON object, the
extracted message starts from the error's `message` attribute (or its
string form if absent) and is replaced by the object's `detail` value
exactly when that value is present and truthy.  (As stated the claim
fails: content parsing to non-object JSON raises an uncaught
`AttributeError` instead of falling back to the starting message.) -/
theorem C6_message_extraction (e : RequestError)
    (h : ∀ v, decodedJson e = some v → v.isDict = true) :
    getRequestErrorMessage e =
      Except.ok (match decodedJson e with
        | some (Val.dict entries) =>
          match entries.lookup "detail" with
          | some d => if truthy d then d else baseMessage e
          | none => baseMessage e
        | _ => baseMessage e) := by
  cases hrc : e.response_content with
  | none => simp [getRequestErrorMessage, decodedJson, hrc]
  | some bytes =>
    cases hdec : utf8Decode bytes with
    | none => simp [getRequestErrorMessage, decodedJson, hrc, hdec]
    | some chars =>
      cases hjson : jsonLoads chars with
      | none => simp [getRequestErrorMessage, decodedJson, hrc, hdec, hjson]
      | some v =>
        have hdict : v.isDict = true := h v (by simp [decodedJson, hrc, hdec, hjson])
        cases v with
        | dict entries =>
          simp only [getRequestErrorMessage, decodedJson, hrc, hdec, hjson]
          cases hd : entries.lookup "detail" with
          | none => simp [hd]
          | some d =>
            by_cases ht : truthy d = true
            · simp [hd, ht]
            · have ht' : truthy d = false := Bool.eq_false_iff.mpr ht
              simp [hd, ht']
        | null => simp [Val.isDict] at hdict
        | bool b => simp [Val.isDict] at hdict
        | num n => simp [Val.isDict] at hdict
        | str s => simp [Val.isDict] at hdict
        | arr es => simp [Val.isDict] at hdict

/-- C6 witness: JSON content `\x7b"detail": "rate limited"\x7d` extracts
the message `rate limited`. -/
theorem C6_message_extraction_witness :
    getRequestErrorMessage rateLimitedError =
      Except.ok (Val.str "rate limited") := by
  have h := C6_message_extraction rateLimitedError (by
    intro v hv
    have h2 : some (Val.dict [("detail", Val.str "rate limited")]) =
        some v := hv
    injection h2 with h3
    rw [← h3]
    rfl)
  exact h.trans (by rfl)

/-- C6 counterexample: an error whose content is the JSON array `[]`
makes `_get_request_error_message` raise an uncaught `AttributeError`
(`list` has no `get`) rather than fall back to the starting message, so
the claimed algorithm does not hold for every structured error. -/
theorem C6_counterexample :
    getRequestErrorMessage nonDictError = Except.error "AttributeError" ∧
    ¬ getRequestErrorMessage nonDictError =
      Except.ok (baseMessage nonDictError) := by
  constructor
  · rfl
  · intro h
    have h2 : (Except.error "AttributeError" : Except String Val) =
        Except.ok (baseMessage nonDictError) :=
      (rfl : getRequestErrorMessage nonDictError =
        Except.error "AttributeError").symm.trans h
    exact Except.noConfusion h2

/-- C7 (amended): malformed parameters and failures raised by the
external call itself — a structured API error whose message extraction
returns normally, or any other exception from the call — result only in
the drop-request signal, never a retry.  (As stated the claim fails:
exceptions arising after a successful call while producing the adapted
response, such as a response JSON without `browserHtml`, propagate
uncaught past request-drop.) -/
theorem C7_failures_drop (job_id : Option Val) (url : String)
    (params : List (String × Val))
    (call : List (String × Val) → ApiCallResult) (v : Val) :
    (∀ m, call (buildPayload job_id url params).1 =
        ApiCallResult.otherError m →
      (downloadRequestApi job_id url (Val.dict params) call).outcome =
        DownloadOutcome.ignoreRequest) ∧
    (∀ e msg, call (buildPayload job_id url params).1 =
        ApiCallResult.requestError e →
      getRequestErrorMessage e = Except.ok msg →
      (downloadRequestApi job_id url (Val.dict params) call).outcome =
        DownloadOutcome.ignoreRequest) ∧
    (v.isDict = false →
      (downloadRequestApi job_id url v call).outcome =
        DownloadOutcome.ignoreRequest) := by
  refine ⟨?_, ?_, ?_⟩
  · intro m hcall
    simp [downloadRequestApi, hcall]
  · intro e msg hcall hmsg
    simp [downloadRequestApi, hcall, hmsg]
  · intro hv
    cases v with
    | dict entries => simp [Val.isDict] at hv
    | null => rfl
    | bool b => rfl
    | num n => rfl
    | str s => rfl
    | arr es => rfl

/-- C7 witness: a generic exception from the external call is turned
into a drop signal. -/
theorem C7_failures_drop_witness :
    (downloadRequestApi none "https://example.com" (Val.dict [])
      (fun _ => ApiCallResult.otherError "boom")).outcome =
      DownloadOutcome.ignoreRequest :=
  (C7_failures_drop none "https://example.com" []
    (fun _ => ApiCallResult.otherError "boom") Val.null).1 "boom" rfl

/-- C7 counterexample: a successful call whose response JSON lacks
`browserHtml` makes `_download_request` raise an uncaught `KeyError`
(the subscript is outside the `try`), so not every adaptation failure
ends in the drop signal. -/
theorem C7_counterexample :
    (downloadRequestApi none "https://example.com" (Val.dict [])
      (fun _ => ApiCallResult.success [])).outcome =
      DownloadOutcome.uncaught "KeyError" := rfl

/-- C8: `close` performs the superseded handler's shutdown first and
the shared-session release after it, each exactly once. -/
theorem C8_close_order :
    close_run [] = [CloseEvent.superClose, CloseEvent.sessionClose] ∧
    (close_run []).count CloseEvent.superClose = 1 ∧
    (close_run []).count CloseEvent.sessionClose = 1 ∧
    (close_run []).indexOf CloseEvent.superClose <
      (close_run []).indexOf CloseEvent.sessionClose := by
  refine ⟨rfl, rfl, rfl, ?_⟩
  decide

/-- C9: a request whose `zyte_api` meta value is falsy (empty dict,
None, 0, empty string, ...) is routed to the superseded standard
handler, not the API path. -/
theorem C9_falsy_meta_fallback (meta : List (String × Val)) (v : Val)
    (h1 : meta.lookup "zyte_api" = some v) (h2 : truthy v = false) :
    download_request meta = Route.fallback := by
  simp [download_request, h1, h2]

/-- C9 witness: an empty dict opts out of the API path. -/
theorem C9_falsy_meta_fallback_witness :
    download_request [("zyte_api", Val.dict [])] = Route.fallback :=
  C9_falsy_meta_fallback [("zyte_api", Val.dict [])] (Val.dict []) rfl rfl

/-- C10: for a well-formed (unique-key) caller parameter mapping the
reserved-key-overwrite warning of the merge loop never fires, because
allowed keys are disjoint from the base payload keys. -/
theorem C10_overwrite_unreachable (url : String)
    (params : List (String × Val)) (k : String)
    (hnd : (params.map Prod.fst).Nodup) :
    LogEvent.warnKeyOverwrite k url ∉ (buildApiData url params).2 := by
  have hdisj : ∀ p ∈ params, allowed_keys.contains p.1 = true →
      p.1 ∉ dkeys [("url", Val.str url), ("browserHtml", Val.bool true)] := by
    intro p _ hpk hmem
    simp only [dkeys, List.map_cons, List.map_nil, List.mem_cons,
      List.mem_singleton] at hmem
    rcases hmem with h | h | h
    · exact allowed_ne_url hpk h
    · exact allowed_ne_browserHtml hpk h
    · exact absurd h (List.not_mem_nil _)
  have hspec := mergeParams_spec url params
    [("url", Val.str url), ("browserHtml", Val.bool true)] hnd hdisj
  intro hmem
  rw [buildApiData, hspec] at hmem
  obtain ⟨p, _, hpe⟩ := List.mem_map.mp hmem
  exact LogEvent.noConfusion hpe

/-- C10 witness: a mapping naming every allowed key plus a stray one
produces no overwrite warning. -/
theorem C10_overwrite_unreachable_witness :
    LogEvent.warnKeyOverwrite "javascript" "https://example.com" ∉
      (buildApiData "https://example.com"
        [("javascript", Val.bool true), ("geolocation", Val.str "US"),
          ("echoData", Val.num 7), ("stray", Val.null)]).2 :=
  C10_overwrite_unreachable "https://example.com"
    [("javascript", Val.bool true), ("geolocation", Val.str "US"),
      ("echoData", Val.num 7), ("stray", Val.null)] "javascript" (by decide)
